import Mathlib

/-!
# Verification of the OCPP charge-point simulator core

Shallow embedding of the repository `harzmann/ocpp-cli-emulator`:
the transaction lifecycle manager and correlation engine (spec §4.2–§4.4;
the implementation files `src/vcp.ts`, `src/transactionManager.ts`,
`src/ocppMessage.ts` are not present in the packaged sources, so they are
modelled from the spec), the StartTransaction message module
(`src/unnamed/part_000`, present), the schema-validation layer, and the
driver script `src/simulate_chargepoint_S001.ts` (present).

Numbers that are JavaScript `number`s are modelled as `ℚ`; integer-typed
protocol fields as `Int`; wire strings as `String`.
-/

/- ### Wire payloads of the MeterValues request (from src/unnamed/part_000) -/

/-- One entry of `sampledValue` in a MeterValues request
(`src/unnamed/part_000`, lines 53–79). -/
structure SampledValue where
  value : String
  measurand : String
  unit : String
deriving DecidableEq, Repr

/-- One entry of `meterValue` (`src/unnamed/part_000`, lines 50–81). -/
structure MeterValueEntry where
  timestamp : String
  sampledValue : List SampledValue
deriving DecidableEq, Repr

/-- Payload of a MeterValues.req as built by the periodic callback
(`src/unnamed/part_000`, lines 47–82). -/
structure MeterValuesReq where
  connectorId : Int
  transactionId : Int
  meterValue : List MeterValueEntry
deriving DecidableEq, Repr

/-- Abstract model of JavaScript `Number.prototype.toString` used at
`(transactionState.meterValue / 1000).toString()` in `src/unnamed/part_000`
line 55: some fixed deterministic rendering of a number to a string. -/
def renderNumber (q : ℚ) : String :=
  toString q

/-- Abstract model of JavaScript `Number.prototype.toFixed nd`: render after
truncating to `nd` decimal digits. -/
def renderFixed (nd : Nat) (q : ℚ) : String :=
  renderNumber (mkRat (q * (10 : ℚ) ^ nd).floor ((10 : Nat) ^ nd))

/- ### Transaction lifecycle manager (spec §3, §4.4) -/

/-- Transaction status (spec §3: `status ∈ {Active, Stopped}`). -/
inductive TxStatus
  | Active
  | Stopped
deriving DecidableEq, Repr

/-- Modelled from the spec: the Transaction record of §3 (the implementing
file `src/transactionManager.ts` is not under `src/`).  `meterValueWh`
corresponds to the `meterValue` field read by the callback in
`src/unnamed/part_000`; `periodicTaskScheduled` models the live
`periodicTaskHandle` (true iff the periodic timer is scheduled). -/
structure Transaction where
  transactionId : Int
  connectorId : Int
  idTag : String
  meterValueWh : ℚ
  startedAt : String
  status : TxStatus
  periodicTaskScheduled : Bool
deriving DecidableEq, Repr

/-- A manager entry: the transaction state together with the
`meterValuesCallback` registered at start (spec §4.4: `startTransaction`
schedules the callback on a fixed period). -/
structure TxEntry where
  tx : Transaction
  meterValuesCallback : Transaction → MeterValuesReq

/-- Modelled from the spec: the Transaction Manager of §3,
`{ transactions : mapping transactionId → Transaction }`. -/
structure TransactionManager where
  transactions : List (Int × TxEntry)

/-- Transaction Manager error taxonomy (spec §7). -/
inductive TMError
  | DuplicateTransactionError
  | TransactionNotFoundError
  | InvalidTransactionStateError
deriving DecidableEq, Repr

/-- Lookup of a transaction id in the manager's mapping. -/
def findTx : List (Int × TxEntry) → Int → Option TxEntry
  | [], _ => none
  | (k, e) :: t, id => if k = id then some e else findTx t id

/-- Pointwise update of the entries stored under a given id. -/
def updateTx : List (Int × TxEntry) → Int → (TxEntry → TxEntry) →
    List (Int × TxEntry)
  | [], _, _ => []
  | (k, e) :: t, id, f =>
      if k = id then (k, f e) :: updateTx t id f
      else (k, e) :: updateTx t id f

/-- The transaction ids present in the mapping. -/
def txKeys (m : TransactionManager) : List Int :=
  m.transactions.map Prod.fst

/-- Modelled from the spec (§4.4 `startTransaction`): fails with
DuplicateTransactionError when the id already exists; otherwise inserts a
fresh Transaction with `meterValueWh = 0`, `status = Active`, and schedules
the periodic callback.  Insertion appends, mirroring JavaScript `Map.set`
insertion order. -/
def startTransaction (m : TransactionManager) (transactionId : Int)
    (idTag : String) (connectorId : Int) (startedAt : String)
    (cb : Transaction → MeterValuesReq) : Except TMError TransactionManager :=
  match findTx m.transactions transactionId with
  | some _ => .error .DuplicateTransactionError
  | none =>
      .ok { transactions := m.transactions ++
        [(transactionId,
          { tx := { transactionId := transactionId
                    connectorId := connectorId
                    idTag := idTag
                    meterValueWh := 0
                    startedAt := startedAt
                    status := .Active
                    periodicTaskScheduled := true }
            meterValuesCallback := cb })] }

/-- Modelled from the spec (§4.4 `stopTransaction`): fails with
TransactionNotFoundError on an unknown id, with
InvalidTransactionStateError when the transaction is no longer Active
(§4.4 state machine); otherwise cancels the periodic task and sets
`status = Stopped`, leaving `meterValueWh` and the mapping entry in place. -/
def stopTransaction (m : TransactionManager) (id : Int) :
    Except TMError TransactionManager :=
  match findTx m.transactions id with
  | none => .error .TransactionNotFoundError
  | some e =>
      if e.tx.status = .Stopped then
        .error .InvalidTransactionStateError
      else
        let halt : TxEntry → TxEntry := fun e0 =>
          { e0 with tx :=
            { e0.tx with status := .Stopped, periodicTaskScheduled := false } }
        .ok { transactions := updateTx m.transactions id halt }

/-- Modelled from the spec (§4.4 `getMeterValue`): not-found error on an
unknown id, else the current (possibly frozen) `meterValueWh`. -/
def getMeterValue (m : TransactionManager) (id : Int) : Except TMError ℚ :=
  match findTx m.transactions id with
  | none => .error .TransactionNotFoundError
  | some e => .ok e.tx.meterValueWh

/-- Modelled from the spec (§4.4): one firing of a transaction's periodic
task with policy increment `inc`.  Fires only while the timer is scheduled
(cancellation at stop is synchronous, §3); a firing first advances
`meterValueWh` and then invokes the stored callback with the updated
state, returning the MeterValues request the callback produced. -/
def tickTransaction (m : TransactionManager) (id : Int) (inc : ℚ) :
    TransactionManager × Option MeterValuesReq :=
  match findTx m.transactions id with
  | none => (m, none)
  | some e =>
      if e.tx.periodicTaskScheduled then
        let tx1 := { e.tx with meterValueWh := e.tx.meterValueWh + inc }
        let adv : TxEntry → TxEntry := fun e0 =>
          { e0 with tx :=
            { e0.tx with meterValueWh := e0.tx.meterValueWh + inc } }
        ({ transactions := updateTx m.transactions id adv },
         some (e.meterValuesCallback tx1))
      else (m, none)

/-- A run of successive periodic firings with the given increments,
collecting every emitted MeterValues request. -/
def runTicks (m : TransactionManager) (id : Int) :
    List ℚ → TransactionManager × List MeterValuesReq
  | [] => (m, [])
  | inc :: rest =>
      let st := tickTransaction m id inc
      let fin := runTicks st.1 id rest
      (fin.1, st.2.toList ++ fin.2)

/- ### Basic mapping lemmas -/

theorem findTx_updateTx_self (l : List (Int × TxEntry)) (id : Int)
    (f : TxEntry → TxEntry) :
    findTx (updateTx l id f) id = (findTx l id).map f := by
  induction l with
  | nil => rfl
  | cons ke t ih =>
      obtain ⟨k, e⟩ := ke
      by_cases hk : k = id
      · simp [updateTx, findTx, hk]
      · simp [updateTx, findTx, hk, ih]

theorem findTx_updateTx_ne (l : List (Int × TxEntry)) (id j : Int)
    (f : TxEntry → TxEntry) (hne : j ≠ id) :
    findTx (updateTx l id f) j = findTx l j := by
  induction l with
  | nil => rfl
  | cons ke t ih =>
      obtain ⟨k, e⟩ := ke
      have hij : id ≠ j := fun h => hne h.symm
      by_cases hk : k = id
      · simp [updateTx, findTx, hk, hij, ih]
      · by_cases hj : k = j
        · simp [updateTx, findTx, hk, hj, hne]
        · simp [updateTx, findTx, hk, hj, ih]

theorem findTx_eq_none_iff (l : List (Int × TxEntry)) (id : Int) :
    findTx l id = none ↔ id ∉ l.map Prod.fst := by
  induction l with
  | nil => simp [findTx]
  | cons ke t ih =>
      obtain ⟨k, e⟩ := ke
      by_cases hk : k = id
      · simp [findTx, hk]
      · rw [List.map_cons]
        simp only [List.mem_cons, findTx, if_neg hk, ih]
        have hik : ¬ id = k := fun h => hk h.symm
        tauto

theorem findTx_append_right (l l' : List (Int × TxEntry)) (id : Int)
    (h : findTx l id = none) : findTx (l ++ l') id = findTx l' id := by
  induction l with
  | nil => rfl
  | cons ke t ih =>
      obtain ⟨k, e⟩ := ke
      by_cases hk : k = id
      · simp [findTx, hk] at h
      · simp only [List.cons_append, findTx, if_neg hk]
        exact ih (by simpa [findTx, hk] using h)

/- ### StartTransaction message module (src/unnamed/part_000) -/

/-- An inbound/outbound call as seen by a response handler.  Modelled from
the spec (§4.2): `src/ocppMessage.ts` is not under `src/`; a call pairs a
correlation id with its payload. -/
structure OcppCall (α : Type) where
  messageId : String
  payload : α

/-- A validated call result delivered to a response handler (spec §4.2). -/
structure OcppCallResult (α : Type) where
  messageId : String
  payload : α

/-- `idTagInfo` of a StartTransaction.conf.  `IdTagInfoSchema` lives in
`_common` (not under `src/`); modelled from the spec (§4.1: enumerated
string fields) with `status` carried as the raw string. -/
structure IdTagInfo where
  status : String
deriving DecidableEq, Repr

/-- Request payload per `StartTransactionReqSchema`
(`src/unnamed/part_000`, lines 11–17). -/
structure StartTransactionReqPayload where
  connectorId : Int
  idTag : String
  meterStart : Int
  reservationId : Option Int
  timestamp : String
deriving DecidableEq, Repr

/-- Response payload per `StartTransactionResSchema`
(`src/unnamed/part_000`, lines 20–23). -/
structure StartTransactionResPayload where
  idTagInfo : IdTagInfo
  transactionId : Int
deriving DecidableEq, Repr

/-- Ambient values the periodic callback of `src/unnamed/part_000` draws
per firing: the wall clock reading and the `Math.random()`-derived
synthetic sensor values of lines 41–44 and 52. -/
structure CallbackEnv where
  timestamp : String
  powerKW : ℚ
  voltage : ℚ
  temperature : ℚ

/-- The periodic `meterValuesCallback` of `src/unnamed/part_000`,
lines 39–96: builds the MeterValues.req with the connectorId of the
original call, the transactionId of the reply, and five sampled values;
the energy register is the transaction's meter value divided by 1000,
rendered as a string with unit kWh (line 55).  `current` is computed from
power and voltage as on line 43.  The callback only reads
`transactionState`; it returns a request and touches no manager state. -/
def meterValuesCallback (callConnectorId : Int) (resultTransactionId : Int)
    (env : CallbackEnv) (transactionState : Transaction) : MeterValuesReq :=
  let current := env.powerKW * 1000 / env.voltage
  { connectorId := callConnectorId
    transactionId := resultTransactionId
    meterValue :=
      [ { timestamp := env.timestamp
          sampledValue :=
            [ { value := renderNumber (transactionState.meterValueWh / 1000)
                measurand := "Energy.Active.Import.Register"
                unit := "kWh" }
            , { value := renderFixed 2 env.powerKW
                measurand := "Power.Active.Import"
                unit := "kW" }
            , { value := renderFixed 1 env.voltage
                measurand := "Voltage"
                unit := "V" }
            , { value := renderFixed 2 current
                measurand := "Current.Import"
                unit := "A" }
            , { value := renderFixed 1 env.temperature
                measurand := "Temperature"
                unit := "Celsius" } ] } ] }

/-- `StartTransactionOcppMessage.resHandler` (`src/unnamed/part_000`,
lines 30–98): on a validated StartTransaction.conf it calls
`transactionManager.startTransaction` with the reply's `transactionId`,
the original call's `idTag` and `connectorId`, and registers the periodic
`meterValuesCallback` closed over those values.  It inspects nothing else
of the result (in particular not `idTagInfo.status`). -/
def resHandler (env : CallbackEnv) (m : TransactionManager)
    (call : OcppCall StartTransactionReqPayload)
    (result : OcppCallResult StartTransactionResPayload) :
    Except TMError TransactionManager :=
  startTransaction m result.payload.transactionId call.payload.idTag
    call.payload.connectorId env.timestamp
    (meterValuesCallback call.payload.connectorId
      result.payload.transactionId env)

/- ### Helper lemmas for the manager claims -/

theorem runTicks_unscheduled (m : TransactionManager) (id : Int) (e : TxEntry)
    (hfind : findTx m.transactions id = some e)
    (hsched : e.tx.periodicTaskScheduled = false) (incs : List ℚ) :
    runTicks m id incs = (m, []) := by
  induction incs with
  | nil => rfl
  | cons inc rest ih =>
      simp [runTicks, tickTransaction, hfind, hsched, ih]

theorem stopTransaction_ok_shape (m : TransactionManager) (id : Int)
    (e : TxEntry) (m' : TransactionManager)
    (hfind : findTx m.transactions id = some e)
    (hstop : stopTransaction m id = .ok m') :
    findTx m'.transactions id =
      some { e with tx :=
        { e.tx with status := .Stopped, periodicTaskScheduled := false } } := by
  by_cases hs : e.tx.status = .Stopped
  · simp [stopTransaction, hfind, hs] at hstop
  · simp only [stopTransaction, hfind, if_neg hs, Except.ok.injEq] at hstop
    subst hstop
    simp [findTx_updateTx_self, hfind]

/- ### Claim theorems: transaction manager -/

/-- C3: each periodic firing of an Active Transaction's telemetry task
first advances `meterValueWh` by the policy increment `inc`, then invokes
the registered callback with the already-updated Transaction state; the
manager state after the firing carries exactly the advanced meter value
(the callback, a pure function producing a request, leaves `meterValueWh`
unchanged — it only reads it). -/
theorem c3_tick_advances_then_invokes (m : TransactionManager) (id : Int)
    (e : TxEntry) (inc : ℚ)
    (hfind : findTx m.transactions id = some e)
    (hsched : e.tx.periodicTaskScheduled = true) :
    (tickTransaction m id inc).2 =
      some (e.meterValuesCallback
        { e.tx with meterValueWh := e.tx.meterValueWh + inc }) ∧
    findTx (tickTransaction m id inc).1.transactions id =
      some { e with tx :=
        { e.tx with meterValueWh := e.tx.meterValueWh + inc } } := by
  constructor
  · simp [tickTransaction, hfind, hsched]
  · simp [tickTransaction, hfind, hsched, findTx_updateTx_self]

/-- Concrete manager for the C3 witness: one Active transaction with
id 7 and meter value 100 Wh. -/
def c3Entry : TxEntry :=
  { tx := { transactionId := 7, connectorId := 1, idTag := "tag"
            meterValueWh := 100, startedAt := "t0", status := .Active
            periodicTaskScheduled := true }
    meterValuesCallback := meterValuesCallback 1 7 ⟨"t1", 11, 405, 30⟩ }

/-- Concrete manager holding `c3Entry`. -/
def c3Manager : TransactionManager := ⟨[(7, c3Entry)]⟩

/-- Witness for C3 at a concrete firing with increment 250 Wh. -/
theorem c3_tick_advances_then_invokes_witness :
    findTx c3Manager.transactions 7 = some c3Entry ∧
    c3Entry.tx.periodicTaskScheduled = true ∧
    ((tickTransaction c3Manager 7 250).2 =
      some (c3Entry.meterValuesCallback
        { c3Entry.tx with meterValueWh := c3Entry.tx.meterValueWh + 250 }) ∧
    findTx (tickTransaction c3Manager 7 250).1.transactions 7 =
      some { c3Entry with tx :=
        { c3Entry.tx with
            meterValueWh := c3Entry.tx.meterValueWh + 250 } }) :=
  ⟨rfl, rfl, c3_tick_advances_then_invokes c3Manager 7 c3Entry 250 rfl rfl⟩

/-- C4: if transaction `id` is present and Active, then after a successful
`stopTransaction` the transaction remains in the mapping with status
Stopped, any number of later periodic-task attempts fire zero more times
(with no manager change), and every later `getMeterValue` returns exactly
the `meterValueWh` held at the moment of the stop. -/
theorem c4_stop_freezes_meter_value (m : TransactionManager) (id : Int)
    (e : TxEntry) (m' : TransactionManager) (incs : List ℚ)
    (hfind : findTx m.transactions id = some e)
    (hstop : stopTransaction m id = .ok m') :
    (∃ e', findTx m'.transactions id = some e' ∧
      e'.tx.status = .Stopped ∧ e'.tx.meterValueWh = e.tx.meterValueWh) ∧
    runTicks m' id incs = (m', []) ∧
    getMeterValue (runTicks m' id incs).1 id = .ok e.tx.meterValueWh := by
  have hshape := stopTransaction_ok_shape m id e m' hfind hstop
  have hrun := runTicks_unscheduled m' id _ hshape rfl incs
  refine ⟨⟨_, hshape, rfl, rfl⟩, hrun, ?_⟩
  rw [hrun]
  simp [getMeterValue, hshape]

/-- Concrete manager for the C4/C5 witnesses: one Active transaction with
id 9 and meter value 750 Wh. -/
def c4Entry : TxEntry :=
  { tx := { transactionId := 9, connectorId := 1, idTag := "tag"
            meterValueWh := 750, startedAt := "t0", status := .Active
            periodicTaskScheduled := true }
    meterValuesCallback := meterValuesCallback 1 9 ⟨"t1", 11, 405, 30⟩ }

/-- Concrete manager holding `c4Entry`. -/
def c4Manager : TransactionManager := ⟨[(9, c4Entry)]⟩

/-- The manager after stopping transaction 9 in `c4Manager`. -/
def c4Stopped : TransactionManager :=
  ⟨[(9, { c4Entry with tx :=
    { c4Entry.tx with status := .Stopped, periodicTaskScheduled := false } })]⟩

/-- Witness for C4: stopping the concrete Active transaction 9 freezes its
meter value at 750 across three later tick attempts. -/
theorem c4_stop_freezes_meter_value_witness :
    findTx c4Manager.transactions 9 = some c4Entry ∧
    stopTransaction c4Manager 9 = .ok c4Stopped ∧
    ((∃ e', findTx c4Stopped.transactions 9 = some e' ∧
      e'.tx.status = .Stopped ∧ e'.tx.meterValueWh = c4Entry.tx.meterValueWh) ∧
    runTicks c4Stopped 9 [500, 500, 500] = (c4Stopped, []) ∧
    getMeterValue (runTicks c4Stopped 9 [500, 500, 500]).1 9 =
      .ok c4Entry.tx.meterValueWh) :=
  ⟨rfl, rfl,
    c4_stop_freezes_meter_value c4Manager 9 c4Entry c4Stopped
      [500, 500, 500] rfl rfl⟩

/-- C5: `stopTransaction` fails with TransactionNotFoundError on an id not
in the mapping, fails with InvalidTransactionStateError on a present but
already-Stopped transaction, and hence a second `stopTransaction` on the
same id always fails with InvalidTransactionStateError.  In both failure
cases only an error value is produced, so the mapping and the
transaction's state are unchanged by construction. -/
theorem c5_stop_error_cases (m : TransactionManager) (id : Int) :
    (findTx m.transactions id = none →
      stopTransaction m id = .error .TransactionNotFoundError) ∧
    (∀ e, findTx m.transactions id = some e → e.tx.status = .Stopped →
      stopTransaction m id = .error .InvalidTransactionStateError) ∧
    (∀ m', stopTransaction m id = .ok m' →
      stopTransaction m' id = .error .InvalidTransactionStateError) := by
  refine ⟨?_, ?_, ?_⟩
  · intro hnone
    simp [stopTransaction, hnone]
  · intro e hfind hstopped
    simp [stopTransaction, hfind, hstopped]
  · intro m' hok
    cases hfind : findTx m.transactions id with
    | none => simp [stopTransaction, hfind] at hok
    | some e =>
        have hshape := stopTransaction_ok_shape m id e m' hfind hok
        simp [stopTransaction, hshape]

/-- Witness for C5 on concrete managers: unknown id 5 in `c4Manager`
fails not-found; stopping 9 twice fails the second call with
InvalidTransactionStateError. -/
theorem c5_stop_error_cases_witness :
    stopTransaction c4Manager 5 = .error .TransactionNotFoundError ∧
    stopTransaction c4Stopped 9 = .error .InvalidTransactionStateError ∧
    stopTransaction c4Manager 9 = .ok c4Stopped ∧
    stopTransaction c4Stopped 9 = .error .InvalidTransactionStateError :=
  ⟨(c5_stop_error_cases c4Manager 5).1 rfl,
   (c5_stop_error_cases c4Stopped 9).2.1 _ rfl rfl,
   rfl,
   (c5_stop_error_cases c4Manager 9).2.2 c4Stopped rfl⟩

/-- C6: `startTransaction` with a transactionId already in the mapping
fails with DuplicateTransactionError — only an error value is produced, so
the existing Transaction and the mapping are unchanged by construction —
and any successful `startTransaction` preserves the invariant that each
transactionId occurs at most once in the mapping. -/
theorem c6_duplicate_start_rejected (m : TransactionManager) (id : Int)
    (e : TxEntry) (idTag : String) (cid : Int) (ts : String)
    (cb : Transaction → MeterValuesReq)
    (hfind : findTx m.transactions id = some e) :
    startTransaction m id idTag cid ts cb =
      .error .DuplicateTransactionError ∧
    (∀ (m0 m' : TransactionManager) (id' : Int) (tg : String) (cn : Int)
        (ts' : String) (cb' : Transaction → MeterValuesReq),
      (txKeys m0).Nodup → startTransaction m0 id' tg cn ts' cb' = .ok m' →
      (txKeys m').Nodup) := by
  constructor
  · simp [startTransaction, hfind]
  · intro m0 m' id' tg cn ts' cb' hnd hok
    cases hfresh : findTx m0.transactions id' with
    | some e0 => simp [startTransaction, hfresh] at hok
    | none =>
        simp only [startTransaction, hfresh, Except.ok.injEq] at hok
        subst hok
        have hnotin : id' ∉ m0.transactions.map Prod.fst :=
          (findTx_eq_none_iff m0.transactions id').mp hfresh
        simp only [txKeys, List.map_append, List.map_cons, List.map_nil,
          List.nodup_append] at *
        exact ⟨hnd, List.nodup_singleton id', by
          intro a ha hb
          simp only [List.mem_singleton] at hb
          subst hb
          exact hnotin ha⟩

/-- Witness for C6: re-starting id 9 on the concrete manager fails with
DuplicateTransactionError, and a successful fresh start preserves key
uniqueness. -/
theorem c6_duplicate_start_rejected_witness :
    startTransaction c4Manager 9 "other-tag" 2 "t9"
      (meterValuesCallback 2 9 ⟨"t9", 11, 405, 30⟩) =
      .error .DuplicateTransactionError ∧
    (txKeys c4Manager).Nodup :=
  ⟨(c6_duplicate_start_rejected c4Manager 9 c4Entry "other-tag" 2 "t9"
      (meterValuesCallback 2 9 ⟨"t9", 11, 405, 30⟩) rfl).1,
   by decide⟩

/-- The start of the C8 scenario: a fresh manager starts transaction 42
(spec §8 end-to-end scenario; the periodic increment is the pluggable
policy value, fixed at 500 Wh per tick for this run). -/
def c8Start : Except TMError TransactionManager :=
  startTransaction ⟨[]⟩ 42 "test-idtag" 1 "t0"
    (meterValuesCallback 1 42 ⟨"t0", 11, 405, 30⟩)

/-- C8: starting transaction 42 on a fresh manager and letting exactly 3
periodic ticks elapse with a fixed per-tick increment of 500 Wh yields
`getMeterValue 42 = 1500`; after `stopTransaction 42` it is still 1500. -/
theorem c8_three_ticks_of_500 :
    ∃ m1 : TransactionManager, c8Start = .ok m1 ∧
      (runTicks m1 42 [500, 500, 500]).2.length = 3 ∧
      getMeterValue (runTicks m1 42 [500, 500, 500]).1 42 = .ok 1500 ∧
      ∃ m3 : TransactionManager,
        stopTransaction (runTicks m1 42 [500, 500, 500]).1 42 = .ok m3 ∧
        getMeterValue m3 42 = .ok 1500 := by
  refine ⟨_, rfl, rfl, ?_, _, rfl, ?_⟩ <;>
    · simp only [c8Start, startTransaction, findTx, runTicks, tickTransaction,
        updateTx, getMeterValue, stopTransaction]
      norm_num

/-- C9: for every validated StartTransaction.conf, `resHandler` starts a
transaction keyed by the reply's transactionId unconditionally — the
statement quantifies over an arbitrary `idTagInfo.status`, so a rejected
or blocked authorization status still yields an Active transaction with
its periodic telemetry callback scheduled. -/
theorem c9_res_handler_ignores_auth_status (env : CallbackEnv)
    (m : TransactionManager) (call : OcppCall StartTransactionReqPayload)
    (result : OcppCallResult StartTransactionResPayload)
    (hfresh : findTx m.transactions result.payload.transactionId = none) :
    ∃ m', resHandler env m call result = .ok m' ∧
      ∃ e, findTx m'.transactions result.payload.transactionId = some e ∧
        e.tx.status = .Active ∧
        e.tx.periodicTaskScheduled = true ∧
        e.tx.transactionId = result.payload.transactionId ∧
        e.tx.idTag = call.payload.idTag ∧
        e.tx.connectorId = call.payload.connectorId ∧
        e.meterValuesCallback =
          meterValuesCallback call.payload.connectorId
            result.payload.transactionId env := by
  simp only [resHandler, startTransaction, hfresh]
  refine ⟨_, rfl, ?_⟩
  refine ⟨⟨{ transactionId := result.payload.transactionId
             connectorId := call.payload.connectorId
             idTag := call.payload.idTag
             meterValueWh := 0
             startedAt := env.timestamp
             status := .Active
             periodicTaskScheduled := true },
           meterValuesCallback call.payload.connectorId
             result.payload.transactionId env⟩,
         ?_, rfl, rfl, rfl, rfl, rfl, rfl⟩
  show findTx (m.transactions ++ _) _ = _
  rw [findTx_append_right _ _ _ hfresh]
  simp [findTx]

/-- Witness for C9: a StartTransaction.conf whose `idTagInfo.status` is
"Blocked" still creates an Active transaction 77 on an empty manager. -/
theorem c9_res_handler_ignores_auth_status_witness :
    findTx (⟨[]⟩ : TransactionManager).transactions 77 = none ∧
    ∃ m', resHandler ⟨"t0", 11, 405, 30⟩ ⟨[]⟩
        ⟨"msg-1", ⟨1, "test-idtag", 0, none, "2024-01-01T00:00:00Z"⟩⟩
        ⟨"msg-1", ⟨⟨"Blocked"⟩, 77⟩⟩ = .ok m' ∧
      ∃ e, findTx m'.transactions 77 = some e ∧
        e.tx.status = .Active ∧
        e.tx.periodicTaskScheduled = true ∧
        e.tx.transactionId = 77 ∧
        e.tx.idTag = "test-idtag" ∧
        e.tx.connectorId = 1 ∧
        e.meterValuesCallback = meterValuesCallback 1 77 ⟨"t0", 11, 405, 30⟩ :=
  ⟨rfl, c9_res_handler_ignores_auth_status ⟨"t0", 11, 405, 30⟩ ⟨[]⟩
    ⟨"msg-1", ⟨1, "test-idtag", 0, none, "2024-01-01T00:00:00Z"⟩⟩
    ⟨"msg-1", ⟨⟨"Blocked"⟩, 77⟩⟩ rfl⟩

/-- C10: every MeterValues request produced by the periodic callback that
`resHandler` registers carries the transactionId of the start reply and
the connectorId of the original request, and its first sampled value is
the string rendering of the transaction's meter value divided by 1000
with measurand Energy.Active.Import.Register and unit "kWh" — the Wh
counter goes on the wire in kWh. -/
theorem c10_meter_values_report_shape (env : CallbackEnv)
    (call : OcppCall StartTransactionReqPayload)
    (result : OcppCallResult StartTransactionResPayload)
    (st : Transaction) :
    (meterValuesCallback call.payload.connectorId
        result.payload.transactionId env st).transactionId =
      result.payload.transactionId ∧
    (meterValuesCallback call.payload.connectorId
        result.payload.transactionId env st).connectorId =
      call.payload.connectorId ∧
    ∃ entry : MeterValueEntry,
      (meterValuesCallback call.payload.connectorId
        result.payload.transactionId env st).meterValue = [entry] ∧
      entry.timestamp = env.timestamp ∧
      entry.sampledValue.head? = some
        { value := renderNumber (st.meterValueWh / 1000)
          measurand := "Energy.Active.Import.Register"
          unit := "kWh" } :=
  ⟨rfl, rfl, _, rfl, rfl, rfl⟩

/- ### Driver script events (src/simulate_chargepoint_S001.ts) -/

/-- Transaction-relevant events a driver script performs or observes, in
program order: sending a StartTransaction.req, a StartTransaction.conf
being received and handled, and direct Transaction Manager calls. -/
inductive ScriptEvent
  | sendStartTransactionReq (connectorId : Int) (idTag : String)
  | recvStartTransactionConf (transactionId : Int)
  | managerStartTransaction (transactionId : Int) (idTag : String)
      (connectorId : Int)
  | managerStopTransaction (transactionId : Int)
deriving DecidableEq, Repr

/-- The transactionId of a Transaction-creating event, if any. -/
def startTxId : ScriptEvent → Option Int
  | .managerStartTransaction t _ _ => some t
  | _ => none

/-- The transactionId of a received StartTransaction.conf, if any. -/
def confTxId : ScriptEvent → Option Int
  | .recvStartTransactionConf t => some t
  | _ => none

/-- Whether a StartTransaction.conf for transaction `t` occurs among the
first `i` events. -/
def confBefore (tr : List ScriptEvent) (i : Nat) (t : Int) : Bool :=
  ((tr.take i).filterMap confTxId).contains t

/-- The claim's property of an event sequence: every Transaction creation
is in response to a received StartTransaction.conf carrying that
transactionId (never speculative). -/
def createdOnlyFromConf (tr : List ScriptEvent) : Prop :=
  ∀ p ∈ tr.enum, ∀ t, startTxId p.2 = some t → confBefore tr p.1 t = true

instance (tr : List ScriptEvent) : Decidable (createdOnlyFromConf tr) := by
  unfold createdOnlyFromConf
  exact List.decidableBAll _ _

/-- Event sequence of the `simulateCharging` driver in
`src/simulate_chargepoint_S001.ts` (second variant, lines 222–301): the
script sends StartTransaction.req (line 239, not awaited) and then calls
`vcp.transactionManager.startTransaction` itself with the locally chosen
constant `transactionId = 1` (lines 222 and 249) — no
StartTransaction.conf has been received or handled at that point, and the
id is not taken from any reply.  Later it stops transaction 1
(line 301). -/
def s001ScriptTrace : List ScriptEvent :=
  [ .sendStartTransactionReq 1 "test-idtag"
  , .managerStartTransaction 1 "test-idtag" 1
  , .managerStopTransaction 1 ]

/-- Counterexample to C2: the S001 driver's event sequence creates a
Transaction that is not in response to any StartTransaction.conf — a
speculative creation with a locally chosen transactionId. -/
theorem c2_speculative_creation_counterexample :
    ¬ createdOnlyFromConf s001ScriptTrace := by
  decide

/-- C2 (amended): the StartTransaction response handler creates
Transactions only in response to a validated StartTransaction.conf —
a successful call adds exactly the reply's transactionId to the mapping —
but the S001 driver script is an additional code path that creates a
Transaction speculatively, with the locally chosen id 1, before any
StartTransaction.conf. -/
theorem c2_creation_paths (env : CallbackEnv) (m : TransactionManager)
    (call : OcppCall StartTransactionReqPayload)
    (result : OcppCallResult StartTransactionResPayload)
    (m' : TransactionManager)
    (hok : resHandler env m call result = .ok m') :
    txKeys m' = txKeys m ++ [result.payload.transactionId] ∧
    ¬ createdOnlyFromConf s001ScriptTrace := by
  constructor
  · cases hfresh : findTx m.transactions result.payload.transactionId with
    | some e => simp [resHandler, startTransaction, hfresh] at hok
    | none =>
        simp only [resHandler, startTransaction, hfresh,
          Except.ok.injEq] at hok
        subst hok
        simp [txKeys]
  · decide

/-- Witness for the amended C2 at a concrete successful exchange. -/
theorem c2_creation_paths_witness :
    ∃ m' : TransactionManager,
      resHandler ⟨"t0", 11, 405, 30⟩ ⟨[]⟩
        ⟨"msg-2", ⟨1, "test-idtag", 0, none, "2024-01-01T00:00:00Z"⟩⟩
        ⟨"msg-2", ⟨⟨"Accepted"⟩, 31⟩⟩ = .ok m' ∧
      txKeys m' = txKeys (⟨[]⟩ : TransactionManager) ++ [31] ∧
      ¬ createdOnlyFromConf s001ScriptTrace :=
  ⟨_, rfl, c2_creation_paths ⟨"t0", 11, 405, 30⟩ ⟨[]⟩
    ⟨"msg-2", ⟨1, "test-idtag", 0, none, "2024-01-01T00:00:00Z"⟩⟩
    ⟨"msg-2", ⟨⟨"Accepted"⟩, 31⟩⟩ _ rfl⟩

/- ### Message correlation engine (spec §4.2) -/

/-- Modelled from the spec: a Pending Call (§3), owned by one Session's
Correlation Engine: the correlation id and the response contract the
eventual reply payload is validated against. -/
structure PendingCall (α : Type) where
  correlationId : Nat
  responseContract : α → Bool

/-- Modelled from the spec: the Correlation Engine state over reply
payloads of type `α` — the pending-call table, plus the settlement of each
caller's future by correlation id (`none` while still awaited; a settled
future holds either the validated reply or a validation error, §4.2). -/
structure CorrelationEngine (α : Type) where
  pending : List (PendingCall α)
  resolved : Nat → Option (Except String α)

/-- Lookup of the pending call with a given correlation id. -/
def findPending {α : Type} : List (PendingCall α) → Nat →
    Option (PendingCall α)
  | [], _ => none
  | pc :: t, cid =>
      if pc.correlationId = cid then some pc else findPending t cid

/-- Modelled from the spec (§4.2 `onFrame`, RESULT case): for a reply
frame `(correlationId, payload)`, looks up the Pending Call; if absent the
frame is discarded (orphan reply, non-fatal); if present, validates the
payload against the pending call's response contract — resolving the
caller's future on success, rejecting it with a validation error on
failure — and either way removes the Pending Call. -/
def onResultFrame {α : Type} (st : CorrelationEngine α) (frame : Nat × α) :
    CorrelationEngine α :=
  match findPending st.pending frame.1 with
  | none => st
  | some pc =>
      { pending := st.pending.filter
          (fun pc0 => decide (pc0.correlationId ≠ frame.1))
        resolved := fun c =>
          if c = frame.1 then
            some (if pc.responseContract frame.2 then .ok frame.2
                  else .error "ValidationError")
          else st.resolved c }

/-- Delivery of a sequence of reply frames, in order. -/
def deliverFrames {α : Type} (st : CorrelationEngine α)
    (frames : List (Nat × α)) : CorrelationEngine α :=
  frames.foldl onResultFrame st

/-- The engine state after N concurrent sends: all calls pending, no
future settled. -/
def initEngine {α : Type} (calls : List (PendingCall α)) :
    CorrelationEngine α :=
  { pending := calls, resolved := fun _ => none }

/- ### Correlation lemmas -/

theorem findPending_of_mem {α : Type} (l : List (PendingCall α)) (c : Nat)
    (pc : PendingCall α) (hmem : pc ∈ l) (hc : pc.correlationId = c)
    (hnd : (l.map PendingCall.correlationId).Nodup) :
    findPending l c = some pc := by
  induction l with
  | nil => cases hmem
  | cons q t ih =>
      simp only [List.map_cons, List.nodup_cons] at hnd
      rcases List.mem_cons.mp hmem with hq | ht
      · subst hq
        simp [findPending, hc]
      · have hqc : q.correlationId ≠ c := by
          intro h
          exact hnd.1 (by
            rw [h, ← hc]
            exact List.mem_map_of_mem PendingCall.correlationId ht)
        simp only [findPending, if_neg hqc]
        exact ih ht hnd.2

theorem onResultFrame_resolved_ne {α : Type} (st : CorrelationEngine α)
    (frame : Nat × α) (c : Nat) (hne : frame.1 ≠ c) :
    (onResultFrame st frame).resolved c = st.resolved c := by
  unfold onResultFrame
  cases findPending st.pending frame.1 with
  | none => rfl
  | some pc =>
      simp only
      rw [if_neg (fun h => hne h.symm)]

theorem deliverFrames_resolved_of_no_match {α : Type}
    (frames : List (Nat × α)) (c : Nat)
    (hno : ∀ f ∈ frames, f.1 ≠ c) :
    ∀ st : CorrelationEngine α,
      (deliverFrames st frames).resolved c = st.resolved c := by
  induction frames with
  | nil => intro st; rfl
  | cons f rest ih =>
      intro st
      have hf : f.1 ≠ c := hno f (List.mem_cons_self f rest)
      have hrest : ∀ g ∈ rest, g.1 ≠ c :=
        fun g hg => hno g (List.mem_cons_of_mem f hg)
      calc (deliverFrames (onResultFrame st f) rest).resolved c
          = (onResultFrame st f).resolved c := ih hrest _
        _ = st.resolved c := onResultFrame_resolved_ne st f c hf

theorem deliverFrames_resolves_own {α : Type} (frames : List (Nat × α))
    (c : Nat) (p : α) :
    ∀ st : CorrelationEngine α, ∀ pc : PendingCall α,
      pc ∈ st.pending → pc.correlationId = c →
      (st.pending.map PendingCall.correlationId).Nodup →
      pc.responseContract p = true →
      frames.filter (fun f => decide (f.1 = c)) = [(c, p)] →
      (deliverFrames st frames).resolved c = some (.ok p) := by
  induction frames with
  | nil => intro st pc _ _ _ _ hfil; simp [List.filter] at hfil
  | cons f rest ih =>
      intro st pc hmem hc hnd hval hfil
      by_cases hf : f.1 = c
      · rw [List.filter_cons_of_pos (by simpa using hf)] at hfil
        have hfe : f = (c, p) := (List.cons.injEq _ _ _ _).mp hfil |>.1
        have hrest : rest.filter (fun f => decide (f.1 = c)) = [] :=
          ((List.cons.injEq _ _ _ _).mp hfil).2
        have hnomatch : ∀ g ∈ rest, g.1 ≠ c := by
          intro g hg hgc
          have : g ∈ rest.filter (fun f => decide (f.1 = c)) :=
            List.mem_filter.mpr ⟨hg, by simpa using hgc⟩
          rw [hrest] at this
          cases this
        have hfind : findPending st.pending f.1 = some pc := by
          rw [hf]; exact findPending_of_mem _ _ _ hmem hc hnd
        have hres : (onResultFrame st f).resolved c = some (.ok p) := by
          unfold onResultFrame
          rw [hfind]
          simp only
          rw [if_pos hf.symm]
          have hp2 : f.2 = p := by rw [hfe]
          rw [hp2, hval]
          simp
        calc (deliverFrames (onResultFrame st f) rest).resolved c
            = (onResultFrame st f).resolved c :=
              deliverFrames_resolved_of_no_match rest c hnomatch _
          _ = some (.ok p) := hres
      · rw [List.filter_cons_of_neg (by simpa using hf)] at hfil
        have hst1 := onResultFrame_resolved_ne st f c hf
        refine ih (onResultFrame st f) pc ?_ hc ?_ hval hfil
        · unfold onResultFrame
          cases findPending st.pending f.1 with
          | none => exact hmem
          | some pc0 =>
              simp only
              refine List.mem_filter.mpr ⟨hmem, ?_⟩
              simp only [decide_eq_true_eq, ne_eq, hc]
              exact fun h => hf h.symm
        · unfold onResultFrame
          cases findPending st.pending f.1 with
          | none => exact hnd
          | some pc0 =>
              simp only
              exact List.Nodup.sublist
                (List.Sublist.map _ (List.filter_sublist _)) hnd

theorem filter_mapped_calls {α : Type} (calls : List (PendingCall α))
    (pmap : Nat → α) (c : Nat)
    (hnd : (calls.map PendingCall.correlationId).Nodup)
    (hmem : c ∈ calls.map PendingCall.correlationId) :
    (calls.map (fun q => (q.correlationId, pmap q.correlationId))).filter
      (fun f => decide (f.1 = c)) = [(c, pmap c)] := by
  induction calls with
  | nil => cases hmem
  | cons q t ih =>
      simp only [List.map_cons, List.nodup_cons] at hnd
      rw [List.map_cons] at hmem
      rcases List.mem_cons.mp hmem with hq | ht
      · subst hq
        rw [List.map_cons, List.filter_cons_of_pos (by simp)]
        have hempty : (t.map
            (fun q0 => (q0.correlationId, pmap q0.correlationId))).filter
            (fun f => decide (f.1 = q.correlationId)) = [] := by
          rw [List.filter_eq_nil_iff]
          intro a ha
          obtain ⟨q0, hq0, rfl⟩ := List.mem_map.mp ha
          simp only [decide_eq_true_eq]
          intro hcontr
          exact hnd.1 (by
            rw [← hcontr]
            exact List.mem_map_of_mem PendingCall.correlationId hq0)
        rw [hempty]
      · have hqc : q.correlationId ≠ c := by
          intro h
          exact hnd.1 (by rw [h]; exact ht)
        rw [List.map_cons, List.filter_cons_of_neg (by simpa using hqc)]
        exact ih hnd.2 ht

/-- C1: with N pending calls outstanding on one Session's correlation
engine (distinct correlation ids), delivering the N reply frames in any
permuted order settles each caller's future with exactly the validated
reply whose correlationId matches that caller's request, never another
caller's reply. -/
theorem c1_replies_matched_by_correlation_id {α : Type}
    (calls : List (PendingCall α)) (pmap : Nat → α)
    (frames : List (Nat × α))
    (hnd : (calls.map PendingCall.correlationId).Nodup)
    (hperm : frames.Perm
      (calls.map (fun q => (q.correlationId, pmap q.correlationId))))
    (hval : ∀ pc ∈ calls,
      pc.responseContract (pmap pc.correlationId) = true) :
    ∀ pc ∈ calls,
      (deliverFrames (initEngine calls) frames).resolved pc.correlationId =
        some (.ok (pmap pc.correlationId)) := by
  intro pc hmem
  have hfil : frames.filter (fun f => decide (f.1 = pc.correlationId)) =
      [(pc.correlationId, pmap pc.correlationId)] := by
    have h1 := hperm.filter (fun f => decide (f.1 = pc.correlationId))
    rw [filter_mapped_calls calls pmap pc.correlationId hnd
      (List.mem_map_of_mem PendingCall.correlationId hmem)] at h1
    exact List.perm_singleton.mp h1
  exact deliverFrames_resolves_own frames pc.correlationId
    (pmap pc.correlationId) (initEngine calls) pc hmem rfl hnd
    (hval pc hmem) hfil

/-- First concurrent call of the C1 witness (correlation id 1,
accept-all response contract). -/
def c1Call1 : PendingCall Nat := ⟨1, fun _ => true⟩

/-- Second concurrent call of the C1 witness (correlation id 2). -/
def c1Call2 : PendingCall Nat := ⟨2, fun _ => true⟩

/-- The reply payload destined for each correlation id in the witness. -/
def c1Payload (c : Nat) : Nat := if c = 1 then 10 else 20

/-- The two reply frames delivered in reversed (permuted) order. -/
def c1Frames : List (Nat × Nat) := [(2, c1Payload 2), (1, c1Payload 1)]

/-- Witness for C1: two outstanding calls, replies delivered out of send
order, each future settles with its own reply. -/
theorem c1_replies_matched_by_correlation_id_witness :
    ([c1Call1, c1Call2].map PendingCall.correlationId).Nodup ∧
    c1Frames.Perm ([c1Call1, c1Call2].map
      (fun q => (q.correlationId, c1Payload q.correlationId))) ∧
    (deliverFrames (initEngine [c1Call1, c1Call2]) c1Frames).resolved 1 =
      some (.ok 10) ∧
    (deliverFrames (initEngine [c1Call1, c1Call2]) c1Frames).resolved 2 =
      some (.ok 20) := by
  have h := c1_replies_matched_by_correlation_id [c1Call1, c1Call2]
    c1Payload c1Frames (by decide) (by decide)
    (by intro pc hmem; fin_cases hmem <;> rfl)
  exact ⟨by decide, by decide,
    h c1Call1 (List.mem_cons_self _ _),
    h c1Call2 (List.mem_cons_of_mem _ (List.mem_cons_self _ _))⟩

/- ### Schema validator (spec §4.1; contracts from src/unnamed/part_000) -/

/-- A JSON-ish payload value (objects in this protocol are flat). -/
inductive JVal
  | jnum (q : ℚ)
  | jstr (s : String)
  | jnull
deriving DecidableEq, Repr

/-- A payload object: association list of field name to value. -/
abbrev JObject := List (String × JVal)

/-- Declared type of a contract field (spec §4.1: integers where declared
integral, well-formed date-times, enumerated strings over a closed set). -/
inductive FieldType
  | fInt
  | fString
  | fDatetime
  | fEnum (allowed : List String)
deriving DecidableEq, Repr

/-- One declared field of a structural contract; `required = false` models
a `nullish` field (may be absent or null). -/
structure FieldSpec where
  name : String
  ftype : FieldType
  required : Bool
deriving DecidableEq, Repr

/-- A structural contract: its declared fields. -/
abbrev Contract := List FieldSpec

/-- First value bound to a key in a payload object. -/
def jlookup : JObject → String → Option JVal
  | [], _ => none
  | (k, v) :: t, n => if k = n then some v else jlookup t n

/-- Modelled from the spec (§4.1 "timestamps are well-formed date-times";
the zod `.datetime()` checker is external):  an ISO-8601 shape check on
the first 19 characters, `YYYY-MM-DDTHH:MM:SS`. -/
def isDatetime (s : String) : Bool :=
  let cs := s.toList
  decide (19 ≤ cs.length) &&
  (List.range 19).all (fun i =>
    match cs.get? i with
    | none => false
    | some ch =>
        if i = 4 ∨ i = 7 then ch == '-'
        else if i = 10 then ch == 'T'
        else if i = 13 ∨ i = 16 then ch == ':'
        else ch.isDigit)

/-- Whether a present, non-null value satisfies a declared field type. -/
def typeOk : FieldType → JVal → Bool
  | .fInt, .jnum q => q.den == 1
  | .fString, .jstr _ => true
  | .fDatetime, .jstr s => isDatetime s
  | .fEnum allowed, .jstr s => allowed.contains s
  | _, _ => false

/-- Conformance of one payload field to its declaration: a required field
must be present, non-null and of the declared type; an optional field may
be absent or null, and must be of the declared type when present. -/
def fieldOk (o : JObject) (f : FieldSpec) : Bool :=
  match jlookup o f.name with
  | none => !f.required
  | some .jnull => !f.required
  | some v => typeOk f.ftype v

/-- A payload conforms to a contract when every declared field checks. -/
def conforms (C : Contract) (o : JObject) : Bool :=
  C.all (fieldOk o)

/-- The payload restricted to the contract's declared fields: declared
fields that are present are kept (in declaration order), everything else
is dropped. -/
def restrict (C : Contract) (o : JObject) : JObject :=
  C.filterMap (fun f => (jlookup o f.name).map (fun v => (f.name, v)))

/-- A structured validation failure: the offending field and the violated
constraint (spec §4.1: a first-class result, never a thrown exception). -/
structure ValidationError where
  field : String
  expected : String
deriving DecidableEq, Repr

/-- Validation of a single declared field: the kept key/value on success
(`none` when an optional field is absent), a structured error naming the
field otherwise. -/
def validateField (o : JObject) (f : FieldSpec) :
    Except ValidationError (Option (String × JVal)) :=
  match jlookup o f.name with
  | none =>
      if f.required then .error ⟨f.name, "required"⟩ else .ok none
  | some .jnull =>
      if f.required then .error ⟨f.name, "required non-null"⟩
      else .ok (some (f.name, .jnull))
  | some v =>
      if typeOk f.ftype v then .ok (some (f.name, v))
      else .error ⟨f.name, "type"⟩

/-- Modelled from the spec (§4.1 `validate`): checks every declared field
in order; on success returns the value with exactly the declared shape (no
extra fields), on failure returns a structured error identifying the first
offending field. -/
def validate (C : Contract) (o : JObject) : Except ValidationError JObject :=
  match C with
  | [] => .ok []
  | f :: rest =>
      match validateField o f with
      | .error e => .error e
      | .ok none => validate rest o
      | .ok (some kv) => (validate rest o).map (fun r => kv :: r)

/-- `StartTransactionReqSchema` (`src/unnamed/part_000`, lines 11–17) as a
structural contract.  `ConnectorIdSchema` and `IdTokenSchema` come from
`_common`, which is not under `src/`; modelled from the spec (§4.1) as an
integer and a string field.  `reservationId` is `nullish`, hence
optional. -/
def StartTransactionReqSchema : Contract :=
  [ ⟨"connectorId", .fInt, true⟩
  , ⟨"idTag", .fString, true⟩
  , ⟨"meterStart", .fInt, true⟩
  , ⟨"reservationId", .fInt, false⟩
  , ⟨"timestamp", .fDatetime, true⟩ ]

/- ### Validator lemmas -/

theorem validateField_ok_of_fieldOk (o : JObject) (f : FieldSpec)
    (h : fieldOk o f = true) :
    validateField o f =
      .ok ((jlookup o f.name).map (fun v => (f.name, v))) := by
  unfold fieldOk at h
  unfold validateField
  cases hl : jlookup o f.name with
  | none =>
      rw [hl] at h
      simp only [Bool.not_eq_true'] at h
      simp [h]
  | some v =>
      rw [hl] at h
      cases v with
      | jnull =>
          simp only [Bool.not_eq_true'] at h
          simp [h]
      | jnum q =>
          have h' : typeOk f.ftype (.jnum q) = true := h
          simp [h']
      | jstr s =>
          have h' : typeOk f.ftype (.jstr s) = true := h
          simp [h']

theorem validateField_error_of_not_fieldOk (o : JObject) (f : FieldSpec)
    (h : fieldOk o f = false) :
    ∃ e, validateField o f = .error e ∧ e.field = f.name := by
  unfold fieldOk at h
  unfold validateField
  cases hl : jlookup o f.name with
  | none =>
      rw [hl] at h
      simp only [Bool.not_eq_false'] at h
      exact ⟨⟨f.name, "required"⟩, by simp [h], rfl⟩
  | some v =>
      rw [hl] at h
      cases v with
      | jnull =>
          simp only [Bool.not_eq_false'] at h
          exact ⟨⟨f.name, "required non-null"⟩, by simp [h], rfl⟩
      | jnum q =>
          have h' : typeOk f.ftype (.jnum q) = false := h
          exact ⟨⟨f.name, "type"⟩, by simp [h'], rfl⟩
      | jstr s =>
          have h' : typeOk f.ftype (.jstr s) = false := h
          exact ⟨⟨f.name, "type"⟩, by simp [h'], rfl⟩

theorem validate_ok_of_conforms (C : Contract) (o : JObject)
    (h : conforms C o = true) : validate C o = .ok (restrict C o) := by
  induction C with
  | nil => rfl
  | cons f rest ih =>
      simp only [conforms, List.all_cons, Bool.and_eq_true] at h
      have hf := validateField_ok_of_fieldOk o f h.1
      have hrest := ih (by simpa [conforms] using h.2)
      unfold validate
      rw [hf]
      cases hl : jlookup o f.name with
      | none =>
          simp only [hl, Option.map_none']
          rw [hrest]
          simp [restrict, List.filterMap_cons, hl]
      | some v =>
          simp only [hl, Option.map_some']
          rw [hrest]
          simp [restrict, List.filterMap_cons, hl, Except.map]

theorem validate_error_of_not_conforms (C : Contract) (o : JObject)
    (h : conforms C o = false) :
    ∃ e, validate C o = .error e ∧
      ∃ f ∈ C, f.name = e.field ∧ fieldOk o f = false := by
  induction C with
  | nil => simp [conforms] at h
  | cons f rest ih =>
      by_cases hf : fieldOk o f = true
      · have hrest : conforms rest o = false := by
          by_contra hcon
          rw [Bool.not_eq_false] at hcon
          rw [show conforms (f :: rest) o = (fieldOk o f && conforms rest o)
            from rfl, hf, hcon] at h
          cases h
        obtain ⟨e, hval, g, hg, hge, hgok⟩ := ih hrest
        refine ⟨e, ?_, g, List.mem_cons_of_mem f hg, hge, hgok⟩
        unfold validate
        rw [validateField_ok_of_fieldOk o f hf]
        cases hl : jlookup o f.name with
        | none => simpa [hl] using hval
        | some v => simp [hl, hval, Except.map]
      · rw [Bool.not_eq_true] at hf
        obtain ⟨e, herr, hefield⟩ := validateField_error_of_not_fieldOk o f hf
        refine ⟨e, ?_, f, List.mem_cons_self f rest, hefield.symm, hf⟩
        unfold validate
        rw [herr]

theorem restrict_keys_declared (C : Contract) (o : JObject) :
    ∀ kv ∈ restrict C o, ∃ f ∈ C, f.name = kv.1 := by
  intro kv hkv
  obtain ⟨f, hf, hmap⟩ := List.mem_filterMap.mp hkv
  cases hl : jlookup o f.name with
  | none => rw [hl] at hmap; cases hmap
  | some v =>
      rw [hl] at hmap
      simp only [Option.map_some', Option.some.injEq] at hmap
      exact ⟨f, hf, by rw [← hmap]⟩

/-- C7: for every contract `C` and payload `P`, if `P` conforms to `C`
then `validate C P` succeeds and returns exactly `P` restricted to `C`'s
declared fields (every kept key is a declared field — no extra fields
injected or retained); if `P` violates `C` (missing required field, wrong
type, out-of-enum value — i.e. some declared field fails its check) then
`validate C P` fails with a structured error identifying a violating
field.  `validate` is a total function: no uncontrolled exception. -/
theorem c7_validate_against_contract (C : Contract) (o : JObject) :
    (conforms C o = true → validate C o = .ok (restrict C o)) ∧
    (conforms C o = false →
      ∃ e, validate C o = .error e ∧
        ∃ f ∈ C, f.name = e.field ∧ fieldOk o f = false) ∧
    (∀ kv ∈ restrict C o, ∃ f ∈ C, f.name = kv.1) :=
  ⟨validate_ok_of_conforms C o,
   validate_error_of_not_conforms C o,
   restrict_keys_declared C o⟩

/-- A payload conforming to `StartTransactionReqSchema`, with one extra
undeclared field that restriction must drop. -/
def c7GoodPayload : JObject :=
  [ ("connectorId", .jnum 1)
  , ("idTag", .jstr "test-idtag")
  , ("meterStart", .jnum 0)
  , ("timestamp", .jstr "2024-01-01T00:00:00Z")
  , ("extra", .jstr "dropped") ]

/-- A payload violating `StartTransactionReqSchema`: `idTag` is missing
and `meterStart` is not integral. -/
def c7BadPayload : JObject :=
  [ ("connectorId", .jnum 1)
  , ("meterStart", .jnum (1/2))
  , ("timestamp", .jstr "2024-01-01T00:00:00Z") ]

/-- Witness for C7 on the StartTransaction request contract of
`src/unnamed/part_000`: the conforming payload validates to its
restriction; the violating payload fails with an error naming a violating
declared field. -/
theorem c7_validate_against_contract_witness :
    (conforms StartTransactionReqSchema c7GoodPayload = true ∧
      validate StartTransactionReqSchema c7GoodPayload =
        .ok (restrict StartTransactionReqSchema c7GoodPayload)) ∧
    (conforms StartTransactionReqSchema c7BadPayload = false ∧
      ∃ e, validate StartTransactionReqSchema c7BadPayload = .error e ∧
        ∃ f ∈ StartTransactionReqSchema, f.name = e.field ∧
          fieldOk c7BadPayload f = false) :=
  ⟨⟨by decide,
    (c7_validate_against_contract StartTransactionReqSchema
      c7GoodPayload).1 (by decide)⟩,
   ⟨by decide,
    (c7_validate_against_contract StartTransactionReqSchema
      c7BadPayload).2.1 (by decide)⟩⟩
